import Mathlib

/-!
Verification of the langfuse-go OTLP event encoder (`internal/pkg/otel`).

The Go source is shallowly embedded: every definition below mirrors a Go
function or type of the encoder.  Machine integers are modelled as `Nat`
with explicit `% 2^w` where overflow matters, Go `nil`-able values as
`Option`, Go byte slices as `List Nat`, and the Go `map` accumulators as
association lists in insertion order.  Go map *iteration* order is
unspecified by the language, so the final emission loop is parameterised
by an iteration order (any permutation of the key list).

`time.Now()` (reached by the id derivers for an empty id) is modelled as
an explicit `now` parameter carrying the clock value the call observes.
-/

/-! ## JSON values

Go `any`-typed payload fields (input, output, metadata, model
parameters) hold JSON-shaped data.  `JsonValue` is the tagged model of
those; Go `nil` is `Option.none` around it. -/

inductive JsonValue where
  | null : JsonValue
  | bool (b : Bool) : JsonValue
  | num (n : Int) : JsonValue
  | str (s : String) : JsonValue
  | arr (xs : List JsonValue) : JsonValue
  | obj (kvs : List (String × JsonValue)) : JsonValue

/-- One JSON string-escaping step, per Go `encoding/json` defaults
(HTML escaping on): `"` and `\` get a backslash, common control
characters use their short escapes, other control characters and
`<`, `>`, `&` become `\u00XX`-style escapes. -/
def jsonEscapeChar (c : Char) : String :=
  if c = '"' then "\\\""
  else if c = '\\' then "\\\\"
  else if c = '\n' then "\\n"
  else if c = '\r' then "\\r"
  else if c = '\t' then "\\t"
  else if c.toNat < 32 ∨ c = '<' ∨ c = '>' ∨ c = '&' then
    let d := fun (n : Nat) => if n < 10 then Char.ofNat (48 + n) else Char.ofNat (87 + n)
    String.mk ['\\', 'u', '0', '0', d (c.toNat / 16 % 16), d (c.toNat % 16)]
  else String.mk [c]

def jsonQuote (s : String) : String :=
  "\"" ++ String.join (s.data.map jsonEscapeChar) ++ "\""

/-- Insertion sort of rendered object entries by key, modelling the fact
that Go `encoding/json` marshals maps with sorted keys. -/
def insertPairByKey (p : String × String) : List (String × String) → List (String × String)
  | [] => [p]
  | q :: rest => if p.1 < q.1 then p :: q :: rest else q :: insertPairByKey p rest

def sortPairsByKey : List (String × String) → List (String × String)
  | [] => []
  | p :: rest => insertPairByKey p (sortPairsByKey rest)

mutual

/-- Canonical JSON rendering, modelling Go `json.Marshal` on JSON-shaped
values (map keys sorted; `json.Marshal` cannot fail on these values, so
the `fmt.Sprint` fallback of `jsonString` is dead code). -/
def renderJson : JsonValue → String
  | .null => "null"
  | .bool b => if b then "true" else "false"
  | .num n => toString n
  | .str s => jsonQuote s
  | .arr xs => "[" ++ String.intercalate "," (renderJsonList xs) ++ "]"
  | .obj kvs =>
      "\x7b" ++
        String.intercalate "," ((sortPairsByKey (renderJsonPairs kvs)).map (fun kv => kv.2)) ++
      "\x7d"

def renderJsonList : List JsonValue → List String
  | [] => []
  | x :: xs => renderJson x :: renderJsonList xs

def renderJsonPairs : List (String × JsonValue) → List (String × String)
  | [] => []
  | kv :: rest => (kv.1, jsonQuote kv.1 ++ ":" ++ renderJson kv.2) :: renderJsonPairs rest

end

/-- Go `jsonString`: empty string for `nil`, JSON serialization otherwise. -/
def jsonString (value : Option JsonValue) : String :=
  match value with
  | none => ""
  | some v => renderJson v

/-! ## String normalisation (Go `strings` helpers used by `normalizeHex`) -/

/-- Go `unicode.IsSpace` (the rune classes trimmed by `strings.TrimSpace`). -/
def isSpaceGo (c : Char) : Bool :=
  let n := c.toNat
  n = 32 || (9 ≤ n && n ≤ 13) || n = 0x85 || n = 0xa0 || n = 0x1680 ||
    (0x2000 ≤ n && n ≤ 0x200a) || n = 0x2028 || n = 0x2029 || n = 0x202f ||
    n = 0x205f || n = 0x3000

/-- Go `strings.TrimSpace`. -/
def trimSpace (s : String) : String :=
  String.mk (((s.data.dropWhile isSpaceGo).reverse.dropWhile isSpaceGo).reverse)

/-- Go `strings.ToLower`, rune-wise.  Only the ASCII mapping is spelled
out: no non-ASCII rune has a simple lowercase form among the hex digits
`0-9a-f`, so the hex validity/length checks below are unaffected by
non-ASCII lowercase mappings. -/
def toLowerGo (c : Char) : Char :=
  if 65 ≤ c.toNat ∧ c.toNat ≤ 90 then Char.ofNat (c.toNat + 32) else c

/-- The per-rune rejection test of Go `normalizeHex`:
`(ch < '0' || ch > '9') && (ch < 'a' || ch > 'f')`. -/
def goHexDigitBad (c : Char) : Bool :=
  (c.toNat < 48 || c.toNat > 57) && (c.toNat < 97 || c.toNat > 102)

/-- Go `normalizeHex`: trim, lowercase, strip `-`
(`strings.ReplaceAll(normalized, "-", "")`), and return `""` as soon as
any rune is outside `0-9a-f`. -/
def normalizeHex (id : String) : String :=
  let normalized := ((trimSpace id).data.map toLowerGo).filter (fun c => c ≠ '-')
  if normalized.all (fun c => !goHexDigitBad c) then String.mk normalized else ""

/-! ## Hex encoding and decoding (Go `encoding/hex`) -/

/-- Go `encoding/hex` `fromHexChar`. -/
def hexVal (c : Char) : Option Nat :=
  if 48 ≤ c.toNat ∧ c.toNat ≤ 57 then some (c.toNat - 48)
  else if 97 ≤ c.toNat ∧ c.toNat ≤ 102 then some (c.toNat - 97 + 10)
  else if 65 ≤ c.toNat ∧ c.toNat ≤ 70 then some (c.toNat - 65 + 10)
  else none

/-- Go `hex.DecodeString` (an odd-length or invalid input is an error,
modelled as `none`). -/
def hexDecodeList : List Char → Option (List Nat)
  | [] => some []
  | [_] => none
  | c1 :: c2 :: rest =>
    match hexVal c1, hexVal c2, hexDecodeList rest with
    | some hi, some lo, some bs => some ((16 * hi + lo) :: bs)
    | _, _, _ => none

def hexDecodeStr (s : String) : Option (List Nat) :=
  hexDecodeList s.data

def hexDigitChar (n : Nat) : Char :=
  if n < 10 then Char.ofNat (48 + n) else Char.ofNat (87 + n)

/-- Go `hex.EncodeToString` (lowercase). -/
def hexEncode (bs : List Nat) : String :=
  String.mk (bs.foldr (fun b acc => hexDigitChar (b / 16) :: hexDigitChar (b % 16) :: acc) [])

/-! ## SHA-256 (Go `crypto/sha256`), executable on byte lists -/

def w32 : Nat := 4294967296

def add32 (a b : Nat) : Nat := (a + b) % w32

def rotr32 (x n : Nat) : Nat := ((x >>> n) ||| (x <<< (32 - n))) % w32

def not32 (x : Nat) : Nat := x ^^^ (w32 - 1)

def smallSigma0 (x : Nat) : Nat := (rotr32 x 7 ^^^ rotr32 x 18) ^^^ (x >>> 3)

def smallSigma1 (x : Nat) : Nat := (rotr32 x 17 ^^^ rotr32 x 19) ^^^ (x >>> 10)

def bigSigma0 (x : Nat) : Nat := (rotr32 x 2 ^^^ rotr32 x 13) ^^^ rotr32 x 22

def bigSigma1 (x : Nat) : Nat := (rotr32 x 6 ^^^ rotr32 x 11) ^^^ rotr32 x 25

def chWord (x y z : Nat) : Nat := (x &&& y) ^^^ (not32 x &&& z)

def majWord (x y z : Nat) : Nat := ((x &&& y) ^^^ (x &&& z)) ^^^ (y &&& z)

def sha256K : List Nat :=
  [1116352408, 1899447441, 3049323471, 3921009573, 961987163,
   1508970993, 2453635748, 2870763221, 3624381080, 310598401,
   607225278, 1426881987, 1925078388, 2162078206, 2614888103,
   3248222580, 3835390401, 4022224774, 264347078, 604807628,
   770255983, 1249150122, 1555081692, 1996064986, 2554220882,
   2821834349, 2952996808, 3210313671, 3336571891, 3584528711,
   113926993, 338241895, 666307205, 773529912, 1294757372,
   1396182291, 1695183700, 1986661051, 2177026350, 2456956037,
   2730485921, 2820302411, 3259730800, 3345764771, 3516065817,
   3600352804, 4094571909, 275423344, 430227734, 506948616,
   659060556, 883997877, 958139571, 1322822218, 1537002063,
   1747873779, 1955562222, 2024104815, 2227730452, 2361852424,
   2428436474, 2756734187, 3204031479, 3329325298]

structure Sha256State where
  a : Nat
  b : Nat
  c : Nat
  d : Nat
  e : Nat
  f : Nat
  g : Nat
  h : Nat

def sha256Init : Sha256State :=
  ⟨1779033703, 3144134277, 1013904242, 2773480762,
   1359893119, 2600822924, 528734635, 1541459225⟩

/-- Extend the 16-word block to the full 64-word message schedule. -/
def buildSchedule (ws : List Nat) : Nat → List Nat
  | 0 => ws
  | r + 1 =>
    let t := ws.length
    let next := add32
      (add32 (smallSigma1 (ws.getD (t - 2) 0)) (ws.getD (t - 7) 0))
      (add32 (smallSigma0 (ws.getD (t - 15) 0)) (ws.getD (t - 16) 0))
    buildSchedule (ws ++ [next]) r

def sha256Round (st : Sha256State) (k w : Nat) : Sha256State :=
  let t1 := add32 (add32 (add32 st.h (bigSigma1 st.e)) (add32 (chWord st.e st.f st.g) k)) w
  let t2 := add32 (bigSigma0 st.a) (majWord st.a st.b st.c)
  ⟨add32 t1 t2, st.a, st.b, st.c, add32 st.d t1, st.e, st.f, st.g⟩

def compressBlock (st : Sha256State) (block : List Nat) : Sha256State :=
  let ws := buildSchedule block 48
  let fin := (sha256K.zip ws).foldl (fun s kw => sha256Round s kw.1 kw.2) st
  ⟨add32 st.a fin.a, add32 st.b fin.b, add32 st.c fin.c, add32 st.d fin.d,
   add32 st.e fin.e, add32 st.f fin.f, add32 st.g fin.g, add32 st.h fin.h⟩

def be64 (n : Nat) : List Nat :=
  [n >>> 56 % 256, n >>> 48 % 256, n >>> 40 % 256, n >>> 32 % 256,
   n >>> 24 % 256, n >>> 16 % 256, n >>> 8 % 256, n % 256]

def be32 (n : Nat) : List Nat :=
  [n >>> 24 % 256, n >>> 16 % 256, n >>> 8 % 256, n % 256]

def padMessage (msg : List Nat) : List Nat :=
  let l := msg.length
  let zeros := (64 - (l + 9) % 64) % 64
  msg ++ [0x80] ++ List.replicate zeros 0 ++ be64 ((8 * l) % (2 ^ 64))

def chunksAux : Nat → List Nat → List (List Nat)
  | 0, _ => []
  | _, [] => []
  | fuel + 1, l => l.take 64 :: chunksAux fuel (l.drop 64)

def chunks64 (l : List Nat) : List (List Nat) :=
  chunksAux l.length l

def wordsOf : List Nat → List Nat
  | b0 :: b1 :: b2 :: b3 :: rest =>
      (((b0 * 256 + b1) * 256 + b2) * 256 + b3) :: wordsOf rest
  | _ => []

def digestBytes (st : Sha256State) : List Nat :=
  be32 st.a ++ be32 st.b ++ be32 st.c ++ be32 st.d ++
    be32 st.e ++ be32 st.f ++ be32 st.g ++ be32 st.h

def sha256 (msg : List Nat) : List Nat :=
  digestBytes (((chunks64 (padMessage msg)).map wordsOf).foldl compressBlock sha256Init)

/-- UTF-8 encoding of one code point. -/
def utf8Bytes (c : Char) : List Nat :=
  let n := c.toNat
  if n < 0x80 then [n]
  else if n < 0x800 then [0xc0 ||| (n >>> 6), 0x80 ||| (n &&& 0x3f)]
  else if n < 0x10000 then
    [0xe0 ||| (n >>> 12), 0x80 ||| ((n >>> 6) &&& 0x3f), 0x80 ||| (n &&& 0x3f)]
  else
    [0xf0 ||| (n >>> 18), 0x80 ||| ((n >>> 12) &&& 0x3f), 0x80 ||| ((n >>> 6) &&& 0x3f),
     0x80 ||| (n &&& 0x3f)]

/-- Go `[]byte(s)`: the UTF-8 bytes of a string. -/
def strBytes (s : String) : List Nat :=
  s.data.flatMap utf8Bytes

/-! ## Identifier deriver (Go `traceIDFromString`, `spanIDFromString`,
`uuidFallback`, `randomBytes`).

`now` is the value `time.Now()` returns at the call (the Go functions
read the clock themselves when the id is empty; within `EncodeEvents`
this branch is unreachable because every resolved id is non-empty). -/

/-- Go `randomBytes`: first `n` bytes of
`sha256(fmt.Sprintf("%d:%d", ts.UnixNano(), n))`. -/
def randomBytes (n : Nat) (ts : Nat) : List Nat :=
  (sha256 (strBytes (toString ts ++ ":" ++ toString n))).take n

/-- Go `uuidFallback`: hex of the first 16 bytes of
`sha256(fmt.Sprintf("%d", ts.UnixNano()))`. -/
def uuidFallback (ts : Nat) : String :=
  hexEncode ((sha256 (strBytes (toString ts))).take 16)

def traceIDFromString (id : String) (now : Nat) : List Nat :=
  if id = "" then randomBytes 16 now
  else
    let normalized := normalizeHex id
    match (if normalized.length = 32 then hexDecodeStr normalized else none) with
    | some decoded => decoded
    | none => (sha256 (strBytes id)).take 16

def spanIDFromString (id : String) (now : Nat) : List Nat :=
  if id = "" then randomBytes 8 now
  else
    let normalized := normalizeHex id
    match (if normalized.length = 16 then hexDecodeStr normalized else none) with
    | some decoded => decoded
    | none =>
      match (if normalized.length = 32 then hexDecodeStr normalized else none) with
      | some decoded => decoded.take 8
      | none => (sha256 (strBytes id)).take 8

/-! ## The data model (Go package `model`)

Timestamps are `Nat` nanosecond counts (`time.Time` / `UnixNano`);
`*time.Time` is `Option Nat`; `any` JSON payloads are `Option JsonValue`.
The `float64` cost fields of `Usage` are modelled as `Int`: no claim
depends on float-specific behaviour, only on the all-fields-zero test. -/

structure Usage where
  input : Int := 0
  output : Int := 0
  total : Int := 0
  unit : String := ""
  inputCost : Int := 0
  outputCost : Int := 0
  totalCost : Int := 0
  promptTokens : Int := 0
  completionTokens : Int := 0
  totalTokens : Int := 0
deriving DecidableEq

structure Trace where
  id : String := ""
  timestamp : Option Nat := none
  name : String := ""
  userID : String := ""
  input : Option JsonValue := none
  output : Option JsonValue := none
  sessionID : String := ""
  release : String := ""
  version : String := ""
  metadata : Option JsonValue := none
  tags : List String := []
  public : Bool := false

structure Generation where
  traceID : String := ""
  name : String := ""
  startTime : Option Nat := none
  metadata : Option JsonValue := none
  input : Option JsonValue := none
  output : Option JsonValue := none
  level : String := ""
  statusMessage : String := ""
  parentObservationID : String := ""
  version : String := ""
  id : String := ""
  endTime : Option Nat := none
  completionStartTime : Option Nat := none
  model : String := ""
  modelParameters : Option JsonValue := none
  usage : Usage := {}
  promptName : String := ""
  promptVersion : Int := 0

structure Span where
  traceID : String := ""
  name : String := ""
  startTime : Option Nat := none
  metadata : Option JsonValue := none
  input : Option JsonValue := none
  output : Option JsonValue := none
  level : String := ""
  statusMessage : String := ""
  parentObservationID : String := ""
  version : String := ""
  id : String := ""
  endTime : Option Nat := none

structure Event where
  traceID : String := ""
  name : String := ""
  startTime : Option Nat := none
  metadata : Option JsonValue := none
  input : Option JsonValue := none
  output : Option JsonValue := none
  level : String := ""
  statusMessage : String := ""
  parentObservationID : String := ""
  version : String := ""
  id : String := ""

/-- The dynamic type of the `any`-typed `IngestionEvent.Body`.  The
encoder's `asTrace`/`asGeneration`/`asSpan`/`asEvent` type switches
accept value or pointer receivers of the matching type and reject
everything else; `other` stands for any non-matching payload (e.g. a
`model.Score`). -/
inductive IngestionBody where
  | trace (t : Trace)
  | generation (g : Generation)
  | span (s : Span)
  | event (e : Event)
  | other

structure IngestionEvent where
  type : String
  id : String := ""
  timestamp : Nat := 0
  body : IngestionBody

def ingestionEventTypeTraceCreate : String := "trace-create"
def ingestionEventTypeGenerationCreate : String := "generation-create"
def ingestionEventTypeGenerationUpdate : String := "generation-update"
def ingestionEventTypeScoreCreate : String := "score-create"
def ingestionEventTypeSpanCreate : String := "span-create"
def ingestionEventTypeSpanUpdate : String := "span-update"
def ingestionEventTypeEventCreate : String := "event-create"

def asTrace : IngestionBody → Option Trace
  | .trace t => some t
  | _ => none

def asGeneration : IngestionBody → Option Generation
  | .generation g => some g
  | _ => none

def asSpan : IngestionBody → Option Span
  | .span s => some s
  | _ => none

def asEvent : IngestionBody → Option Event
  | .event e => some e
  | _ => none

/-! ## Aggregator state (Go package `otel`) -/

inductive ObservationKind where
  | trace
  | span
  | generation
  | event
deriving DecidableEq

/-- Go `string(kind)` for the `observationKind` constants. -/
def kindString : ObservationKind → String
  | .trace => "trace"
  | .span => "span"
  | .generation => "generation"
  | .event => "event"

/-- The aggregator's map key.  Go builds it as `"trace:" + id`,
`"generation:" + id`, `"span:" + id`, `"event:" + id`; the four prefixes
start with distinct letters, so that concatenation is injective on
(kind, id) pairs and is modelled as the pair itself. -/
structure ObsKey where
  kind : ObservationKind
  id : String
deriving DecidableEq

structure ObservationState where
  kind : ObservationKind
  id : String := ""
  traceID : String := ""
  parentID : String := ""
  name : String := ""
  startTime : Option Nat := none
  endTime : Option Nat := none
  fallbackTime : Nat
  completionStartTime : Option Nat := none
  level : String := ""
  statusMessage : String := ""
  input : Option JsonValue := none
  output : Option JsonValue := none
  metadata : Option JsonValue := none
  version : String := ""
  model : String := ""
  modelParameters : Option JsonValue := none
  usage : Usage := {}
  promptName : String := ""
  promptVersion : Int := 0
  hasPromptVersion : Bool := false
  public : Option Bool := none

/-- Go `isZeroUsage`: `usage == model.Usage{}`. -/
def isZeroUsage (u : Usage) : Bool := u == ({} : Usage)

def hasCost (u : Usage) : Bool :=
  u.inputCost != 0 || u.outputCost != 0 || u.totalCost != 0

def coalesce (current candidate : String) : String :=
  if current ≠ "" then current else candidate

def coalesceTime (current candidate : Option Nat) : Option Nat :=
  match current with
  | some t => some t
  | none => candidate

def coalesceAny (current candidate : Option JsonValue) : Option JsonValue :=
  match current with
  | some v => some v
  | none => candidate

/-! ## Aggregation (the second loop of Go `EncodeEvents` and the
`apply*` helpers).

Go mutates a `map[string]*observationState` through
`getOrCreateObservation` followed by in-place field writes; this is
rendered as an association list in insertion order with
`getOrCreateThen obs key kind fallback f`: apply `f` to the existing
state at `key`, or to a fresh state appended at the end. -/

def alookup {κ α : Type} [DecidableEq κ] : List (κ × α) → κ → Option α
  | [], _ => none
  | p :: rest, k => if p.1 = k then some p.2 else alookup rest k

def updateEntry {κ α : Type} [DecidableEq κ] (l : List (κ × α)) (k : κ) (f : α → α) :
    List (κ × α) :=
  l.map (fun p => if p.1 = k then (p.1, f p.2) else p)

/-- Go map assignment `m[k] = v`. -/
def mapSet {κ α : Type} [DecidableEq κ] (l : List (κ × α)) (k : κ) (v : α) : List (κ × α) :=
  match alookup l k with
  | some _ => updateEntry l k (fun _ => v)
  | none => l ++ [(k, v)]

/-- Go `getOrCreateObservation` (fresh state: zero value with the kind
and the fallback time), fused with the in-place mutation `f` the caller
performs on the returned pointer. -/
def freshState (kind : ObservationKind) (fallback : Nat) : ObservationState :=
  { kind := kind, fallbackTime := fallback }

def getOrCreateThen (obs : List (ObsKey × ObservationState)) (key : ObsKey)
    (kind : ObservationKind) (fallback : Nat) (f : ObservationState → ObservationState) :
    List (ObsKey × ObservationState) :=
  match alookup obs key with
  | some _ => updateEntry obs key f
  | none => obs ++ [(key, f (freshState kind fallback))]

/-- Trace id resolution of a trace-create event:
`trace.ID`, else `event.ID`, else `uuidFallback(event.Timestamp)`. -/
def resolveTraceID (tr : Trace) (e : IngestionEvent) : String :=
  let t := if tr.id = "" then e.id else tr.id
  if t = "" then uuidFallback e.timestamp else t

/-- The inline trace-create merge of `EncodeEvents`. -/
def traceCreateMerge (tr : Trace) (traceID : String) (st : ObservationState) :
    ObservationState :=
  { st with
    id := traceID
    traceID := traceID
    name := coalesce st.name tr.name
    startTime := coalesceTime st.startTime tr.timestamp
    input := coalesceAny st.input tr.input
    output := coalesceAny st.output tr.output
    version := coalesce st.version tr.version
    public := match st.public with
      | none => some tr.public
      | some b => some b }

/-- Field merges of Go `applyGenerationCreate` (everything after the
get-or-create). -/
def genCreateState (g : Generation) (id : String) (st : ObservationState) :
    ObservationState :=
  { st with
    id := id
    traceID := coalesce st.traceID g.traceID
    parentID := coalesce st.parentID g.parentObservationID
    name := coalesce st.name g.name
    startTime := coalesceTime st.startTime g.startTime
    input := coalesceAny st.input g.input
    output := coalesceAny st.output g.output
    metadata := coalesceAny st.metadata g.metadata
    level := if st.level = "" then g.level else st.level
    statusMessage := coalesce st.statusMessage g.statusMessage
    version := coalesce st.version g.version
    model := coalesce st.model g.model
    modelParameters := coalesceAny st.modelParameters g.modelParameters
    usage := if isZeroUsage st.usage then g.usage else st.usage
    promptName := coalesce st.promptName g.promptName
    promptVersion :=
      if !st.hasPromptVersion && g.promptVersion != 0 then g.promptVersion
      else st.promptVersion
    hasPromptVersion :=
      if !st.hasPromptVersion && g.promptVersion != 0 then true else st.hasPromptVersion
    completionStartTime := coalesceTime st.completionStartTime g.completionStartTime }

/-- Field merges of Go `applyGenerationUpdate`. -/
def genUpdateState (g : Generation) (id : String) (st : ObservationState) :
    ObservationState :=
  { st with
    id := id
    traceID := coalesce st.traceID g.traceID
    parentID := coalesce st.parentID g.parentObservationID
    name := coalesce st.name g.name
    startTime := coalesceTime st.startTime g.startTime
    endTime := coalesceTime st.endTime g.endTime
    output := match g.output with
      | some o => some o
      | none => st.output
    metadata := match g.metadata with
      | some m => some m
      | none => st.metadata
    level := if g.level ≠ "" then g.level else st.level
    statusMessage := if g.statusMessage ≠ "" then g.statusMessage else st.statusMessage
    version := if g.version ≠ "" then g.version else st.version
    model := if g.model ≠ "" then g.model else st.model
    modelParameters := match g.modelParameters with
      | some p => some p
      | none => st.modelParameters
    usage := if !isZeroUsage g.usage then g.usage else st.usage
    promptName := if g.promptName ≠ "" then g.promptName else st.promptName
    promptVersion := if g.promptVersion != 0 then g.promptVersion else st.promptVersion
    hasPromptVersion := if g.promptVersion != 0 then true else st.hasPromptVersion
    completionStartTime := coalesceTime st.completionStartTime g.completionStartTime }

/-- Field merges of Go `applySpanCreate`. -/
def spanCreateState (s : Span) (id : String) (st : ObservationState) : ObservationState :=
  { st with
    id := id
    traceID := coalesce st.traceID s.traceID
    parentID := coalesce st.parentID s.parentObservationID
    name := coalesce st.name s.name
    startTime := coalesceTime st.startTime s.startTime
    input := coalesceAny st.input s.input
    output := coalesceAny st.output s.output
    metadata := coalesceAny st.metadata s.metadata
    level := if st.level = "" then s.level else st.level
    statusMessage := coalesce st.statusMessage s.statusMessage
    version := coalesce st.version s.version }

/-- Field merges of Go `applySpanUpdate`. -/
def spanUpdateState (s : Span) (id : String) (st : ObservationState) : ObservationState :=
  { st with
    id := id
    traceID := coalesce st.traceID s.traceID
    parentID := coalesce st.parentID s.parentObservationID
    name := coalesce st.name s.name
    startTime := coalesceTime st.startTime s.startTime
    endTime := coalesceTime st.endTime s.endTime
    output := match s.output with
      | some o => some o
      | none => st.output
    metadata := match s.metadata with
      | some m => some m
      | none => st.metadata
    level := if s.level ≠ "" then s.level else st.level
    statusMessage := if s.statusMessage ≠ "" then s.statusMessage else st.statusMessage
    version := if s.version ≠ "" then s.version else st.version }

/-- Field merges of Go `applyEventCreate`. -/
def eventCreateState (ev : Event) (id : String) (st : ObservationState) : ObservationState :=
  { st with
    id := id
    traceID := coalesce st.traceID ev.traceID
    parentID := coalesce st.parentID ev.parentObservationID
    name := coalesce st.name ev.name
    startTime := coalesceTime st.startTime ev.startTime
    input := coalesceAny st.input ev.input
    output := coalesceAny st.output ev.output
    metadata := coalesceAny st.metadata ev.metadata
    level := if st.level = "" then ev.level else st.level
    statusMessage := coalesce st.statusMessage ev.statusMessage
    version := coalesce st.version ev.version }

/-- One iteration of the observation-aggregation loop of `EncodeEvents`
(its `switch event.Type`). -/
def aggregateStep (obs : List (ObsKey × ObservationState)) (e : IngestionEvent) :
    List (ObsKey × ObservationState) :=
  if e.type = ingestionEventTypeTraceCreate then
    match asTrace e.body with
    | some tr =>
      let traceID := resolveTraceID tr e
      getOrCreateThen obs ⟨.trace, traceID⟩ .trace e.timestamp (traceCreateMerge tr traceID)
    | none => obs
  else if e.type = ingestionEventTypeGenerationCreate then
    match asGeneration e.body with
    | some g =>
      let id := coalesce g.id (uuidFallback e.timestamp)
      getOrCreateThen obs ⟨.generation, id⟩ .generation e.timestamp (genCreateState g id)
    | none => obs
  else if e.type = ingestionEventTypeGenerationUpdate then
    match asGeneration e.body with
    | some g =>
      let id := coalesce g.id (uuidFallback e.timestamp)
      getOrCreateThen obs ⟨.generation, id⟩ .generation e.timestamp (genUpdateState g id)
    | none => obs
  else if e.type = ingestionEventTypeSpanCreate then
    match asSpan e.body with
    | some s =>
      let id := coalesce s.id (uuidFallback e.timestamp)
      getOrCreateThen obs ⟨.span, id⟩ .span e.timestamp (spanCreateState s id)
    | none => obs
  else if e.type = ingestionEventTypeSpanUpdate then
    match asSpan e.body with
    | some s =>
      let id := coalesce s.id (uuidFallback e.timestamp)
      getOrCreateThen obs ⟨.span, id⟩ .span e.timestamp (spanUpdateState s id)
    | none => obs
  else if e.type = ingestionEventTypeEventCreate then
    match asEvent e.body with
    | some ev =>
      let id := coalesce ev.id (uuidFallback e.timestamp)
      getOrCreateThen obs ⟨.event, id⟩ .event e.timestamp (eventCreateState ev id)
    | none => obs
  else obs

def aggregate (events : List IngestionEvent) : List (ObsKey × ObservationState) :=
  events.foldl aggregateStep []

/-! ## Attributes and trace contexts -/

inductive AttrValue where
  | str (s : String)
  | bool (b : Bool)
  | int (i : Int)
  | strArray (xs : List String)
deriving DecidableEq

structure KeyValue where
  key : String
  value : AttrValue
deriving DecidableEq

/-- Go `attrString` / `attrBool` / `attrInt` / `attrStringArray`.  Their
`key == ""` (resp. empty array) nil-guards are dead code: every call
site passes a non-empty literal key (metadata keys are prefixed and the
empty metadata key is skipped), and the array constructor is guarded by
`len(trace.Tags) > 0`. -/
def attrString (key value : String) : KeyValue := ⟨key, .str value⟩

def attrBool (key : String) (value : Bool) : KeyValue := ⟨key, .bool value⟩

def attrInt (key : String) (value : Int) : KeyValue := ⟨key, .int value⟩

def attrStringArray (key : String) (values : List String) : KeyValue :=
  ⟨key, .strArray values⟩

/-- Go `appendMetadataAttrs`.  A JSON object plays the role of the Go
`map[string]any` branch (one prefixed attribute per non-empty key, value
JSON-serialized; the `map[string]string` branch differs only in not
quoting values and is not distinguishable in the JSON model); any other
non-nil value lands under the `"raw"` suffix.  Entries are emitted in
stored order; Go map iteration order is unspecified (see the C1
analysis). -/
def appendMetadataAttrs (pfx : String) (metadata : Option JsonValue)
    (attrs : List KeyValue) : List KeyValue :=
  match metadata with
  | none => attrs
  | some (.obj kvs) =>
      attrs ++ kvs.filterMap (fun kv =>
        if kv.1 = "" then none
        else some (attrString (pfx ++ kv.1) (jsonString (some kv.2))))
  | some v => attrs ++ [attrString (pfx ++ "raw") (jsonString (some v))]

structure TraceContext where
  traceID : String
  traceIDBytes : List Nat
  rootSpanID : List Nat
  propagateAttrs : List KeyValue
  rootAttrs : List KeyValue

/-- Go `buildTraceContext`. -/
def buildTraceContext (now : Nat) (traceID : String) (tr : Trace) : TraceContext :=
  let propagate : List KeyValue :=
    (if tr.userID ≠ "" then [attrString "langfuse.user.id" tr.userID] else []) ++
    (if tr.sessionID ≠ "" then [attrString "langfuse.session.id" tr.sessionID] else []) ++
    (if tr.release ≠ "" then [attrString "langfuse.release" tr.release] else []) ++
    (if tr.version ≠ "" then [attrString "langfuse.version" tr.version] else []) ++
    (if tr.tags.length > 0 then [attrStringArray "langfuse.trace.tags" tr.tags] else [])
  let propagate := appendMetadataAttrs "langfuse.trace.metadata." tr.metadata propagate
  let rootAttrs : List KeyValue :=
    (if tr.name ≠ "" then [attrString "langfuse.trace.name" tr.name] else []) ++
    (match tr.input with
      | some _ => [attrString "langfuse.trace.input" (jsonString tr.input)]
      | none => []) ++
    (match tr.output with
      | some _ => [attrString "langfuse.trace.output" (jsonString tr.output)]
      | none => []) ++
    [attrBool "langfuse.trace.public" tr.public]
  { traceID := traceID
    traceIDBytes := traceIDFromString traceID now
    rootSpanID := spanIDFromString traceID now
    propagateAttrs := propagate
    rootAttrs := rootAttrs }

/-- The first loop of Go `EncodeEvents` (one `traceContext` per distinct
resolved trace id among trace-create events, later assignments
overwriting earlier ones). -/
def buildTraceContexts (now : Nat) (events : List IngestionEvent) :
    List (String × TraceContext) :=
  events.foldl
    (fun acc e =>
      if e.type = ingestionEventTypeTraceCreate then
        match asTrace e.body with
        | some tr =>
          let traceID := resolveTraceID tr e
          mapSet acc traceID (buildTraceContext now traceID tr)
        | none => acc
      else acc)
    []

/-- Go `observationType`. -/
def observationType : ObservationKind → String
  | .generation => "generation"
  | .event => "event"
  | .trace => "span"
  | .span => "span"

def usageDetails (u : Usage) : JsonValue :=
  .obj ((if u.input != 0 then [("input", JsonValue.num u.input)] else []) ++
    (if u.output != 0 then [("output", JsonValue.num u.output)] else []) ++
    (if u.total != 0 then [("total", JsonValue.num u.total)] else []) ++
    (if u.unit ≠ "" then [("unit", JsonValue.str u.unit)] else []) ++
    (if u.promptTokens != 0 then [("promptTokens", JsonValue.num u.promptTokens)] else []) ++
    (if u.completionTokens != 0 then
      [("completionTokens", JsonValue.num u.completionTokens)] else []) ++
    (if u.totalTokens != 0 then [("totalTokens", JsonValue.num u.totalTokens)] else []))

def costDetails (u : Usage) : JsonValue :=
  .obj ((if u.inputCost != 0 then [("input", JsonValue.num u.inputCost)] else []) ++
    (if u.outputCost != 0 then [("output", JsonValue.num u.outputCost)] else []) ++
    (if u.totalCost != 0 then [("total", JsonValue.num u.totalCost)] else []))

/-- Models Go `completionStartTime.UTC().Format(time.RFC3339Nano)`.  The
calendar rendering is Go standard-library behaviour external to this
repository and no claim inspects the rendered text; it is modelled as a
deterministic injective rendering of the nanosecond instant. -/
def formatRFC3339Nano (ts : Nat) : String :=
  "utc-ns:" ++ toString ts

/-- Go `observationAttributes`, each conditional `append` rendered as a
conditional singleton segment in source order. -/
def observationAttributes (st : ObservationState) : List KeyValue :=
  let base : List KeyValue :=
    (if observationType st.kind ≠ "" then
      [attrString "langfuse.observation.type" (observationType st.kind)] else []) ++
    (if st.level ≠ "" then [attrString "langfuse.observation.level" st.level] else []) ++
    (if st.statusMessage ≠ "" then
      [attrString "langfuse.observation.status_message" st.statusMessage] else []) ++
    (match st.input with
      | some _ => [attrString "langfuse.observation.input" (jsonString st.input)]
      | none => []) ++
    (match st.output with
      | some _ => [attrString "langfuse.observation.output" (jsonString st.output)]
      | none => [])
  let withMeta := appendMetadataAttrs "langfuse.observation.metadata." st.metadata base
  withMeta ++
    (if st.model ≠ "" then [attrString "langfuse.observation.model.name" st.model] else []) ++
    (match st.modelParameters with
      | some _ =>
        [attrString "langfuse.observation.model.parameters" (jsonString st.modelParameters)]
      | none => []) ++
    (if !isZeroUsage st.usage then
      [attrString "langfuse.observation.usage_details"
        (jsonString (some (usageDetails st.usage)))] else []) ++
    (if hasCost st.usage then
      [attrString "langfuse.observation.cost_details"
        (jsonString (some (costDetails st.usage)))] else []) ++
    (if st.promptName ≠ "" then
      [attrString "langfuse.observation.prompt.name" st.promptName] else []) ++
    (if st.hasPromptVersion then
      [attrInt "langfuse.observation.prompt.version" st.promptVersion] else []) ++
    (match st.completionStartTime with
      | some ts =>
        [attrString "langfuse.observation.completion_start_time" (formatRFC3339Nano ts)]
      | none => []) ++
    (if st.version ≠ "" then [attrString "langfuse.version" st.version] else []) ++
    (match st.kind, st.public with
      | .trace, some b => [attrBool "langfuse.trace.public" b]
      | _, _ => [])

/-! ## Span assembly and encoding -/

/-- `tracev1.Span` restricted to the fields the encoder sets.  A nil
parent span id is `[]`; `Status` is carried as its message. -/
structure ProtoSpan where
  traceId : List Nat
  spanId : List Nat
  parentSpanId : List Nat
  name : String
  startTimeUnixNano : Nat
  endTimeUnixNano : Nat
  attributes : List KeyValue
  statusMessage : Option String
deriving DecidableEq

/-- Go `buildSpan` (its `error` result is always nil). -/
def buildSpan (now : Nat) (state : ObservationState) (traceCtx : Option TraceContext) :
    ProtoSpan :=
  let traceID0 := state.traceID
  let traceID1 :=
    if traceID0 = "" then
      match traceCtx with
      | some ctx => ctx.traceID
      | none => traceID0
    else traceID0
  let traceID := if traceID1 = "" then uuidFallback state.fallbackTime else traceID1
  let traceIDBytes0 := traceIDFromString traceID now
  let traceIDBytes :=
    match traceCtx with
    | some ctx => if ctx.traceID = traceID then ctx.traceIDBytes else traceIDBytes0
    | none => traceIDBytes0
  let spanID0 := spanIDFromString state.id now
  let spanID :=
    match traceCtx with
    | some ctx => if state.kind = .trace then ctx.rootSpanID else spanID0
    | none => spanID0
  let parentSpanID : List Nat :=
    if state.kind ≠ .trace then
      if state.parentID ≠ "" then spanIDFromString state.parentID now
      else
        match traceCtx with
        | some ctx => ctx.rootSpanID
        | none => []
    else []
  let startTime :=
    match state.startTime with
    | some t => t
    | none => state.fallbackTime
  let endTime :=
    match state.endTime with
    | some t => t
    | none => startTime
  let attrs : List KeyValue :=
    (match traceCtx with
      | some ctx => ctx.propagateAttrs
      | none => []) ++
    (match traceCtx with
      | some ctx => if state.kind = .trace then ctx.rootAttrs else []
      | none => []) ++
    observationAttributes state
  { traceId := traceIDBytes
    spanId := spanID
    parentSpanId := parentSpanID
    name := coalesce state.name (kindString state.kind)
    startTimeUnixNano := startTime
    endTimeUnixNano := endTime
    attributes := attrs
    statusMessage := if state.statusMessage ≠ "" then some state.statusMessage else none }

def obsKeys (events : List IngestionEvent) : List ObsKey :=
  (aggregate events).map (fun p => p.1)

/-- The emission loop of `EncodeEvents` (`for _, obs := range
observations`), parameterised by the map iteration order: Go leaves the
order of `range` over a map unspecified, so `order` may be any
permutation of the key list.  The produced span list is wrapped
verbatim (one resource, one scope) and proto-marshalled, which
serializes repeated fields in list order. -/
def encodeOrd (now : Nat) (events : List IngestionEvent) (order : List ObsKey) :
    List ProtoSpan :=
  let ctxs := buildTraceContexts now events
  let obs := aggregate events
  order.filterMap (fun k =>
    (alookup obs k).map (fun st => buildSpan now st (alookup ctxs st.traceID)))

/-- `EncodeEvents` under the insertion-order iteration (one admissible
run of the Go loop). -/
def encodeEvents (now : Nat) (events : List IngestionEvent) : List ProtoSpan :=
  encodeOrd now events (obsKeys events)

/-! ## Basic facts about the digest and hex machinery -/

theorem digestBytes_length (st : Sha256State) : (digestBytes st).length = 32 := by
  simp [digestBytes, be32]

theorem sha256_length (msg : List Nat) : (sha256 msg).length = 32 := by
  unfold sha256
  exact digestBytes_length _

theorem randomBytes_length (n ts : Nat) (h : n ≤ 32) : (randomBytes n ts).length = n := by
  simp [randomBytes, List.length_take, sha256_length]
  omega

theorem hexDecodeList_length :
    ∀ (l : List Char) (bs : List Nat), hexDecodeList l = some bs → l.length = 2 * bs.length := by
  intro l
  induction l using hexDecodeList.induct with
  | case1 =>
    intro bs h
    simp [hexDecodeList] at h
    simp [← h]
  | case2 c =>
    intro bs h
    simp [hexDecodeList] at h
  | case3 c1 c2 rest hi lo bs hrest hc2 hc1 ih =>
    intro bs2 h
    simp only [hexDecodeList, hc1, hc2, hrest, Option.some.injEq] at h
    subst h
    simp [ih _ hrest]
    omega
  | case4 c1 c2 rest hnone ih =>
    intro bs2 h
    simp only [hexDecodeList] at h
    cases h1 : hexVal c1 <;> cases h2 : hexVal c2 <;> cases h3 : hexDecodeList rest <;>
      simp [h1, h2, h3] at h

theorem hexVal_isSome_of_ok (c : Char) (h : goHexDigitBad c = false) : (hexVal c).isSome := by
  simp only [goHexDigitBad, Bool.and_eq_false_iff, Bool.or_eq_false_iff,
    decide_eq_false_iff_not, not_lt] at h
  simp only [hexVal]
  split
  · simp
  · split
    · simp
    · split
      · simp
      · rename_i hn1 hn2 hn3
        simp only [not_and, not_le] at hn1 hn2 hn3
        rcases h with ⟨h1, h2⟩ | ⟨h1, h2⟩ <;> omega

theorem hexDecodeList_isSome :
    ∀ (n : Nat) (l : List Char), l.length ≤ n → (∀ c ∈ l, goHexDigitBad c = false) →
      l.length % 2 = 0 → (hexDecodeList l).isSome := by
  intro n
  induction n with
  | zero =>
    intro l hl _ _
    have : l = [] := List.eq_nil_of_length_eq_zero (Nat.le_zero.mp hl)
    subst this
    simp [hexDecodeList]
  | succ n ih =>
    intro l hl hok hev
    match l with
    | [] => simp [hexDecodeList]
    | [c] => simp at hev
    | c1 :: c2 :: rest =>
      have o1 := hexVal_isSome_of_ok c1 (hok c1 (by simp))
      have o2 := hexVal_isSome_of_ok c2 (hok c2 (by simp))
      have orest : (hexDecodeList rest).isSome := by
        apply ih rest
        · simp at hl; omega
        · intro c hc; exact hok c (by simp [hc])
        · simp at hev ⊢; omega
      rcases Option.isSome_iff_exists.mp o1 with ⟨v1, hv1⟩
      rcases Option.isSome_iff_exists.mp o2 with ⟨v2, hv2⟩
      rcases Option.isSome_iff_exists.mp orest with ⟨bs, hbs⟩
      simp [hexDecodeList, hv1, hv2, hbs]

theorem normalizeHex_chars (s : String) :
    ∀ c ∈ (normalizeHex s).data, goHexDigitBad c = false := by
  simp only [normalizeHex]
  split
  · rename_i h
    intro c hc
    have := List.all_eq_true.mp h c hc
    simpa using this
  · intro c hc
    simp [String.data] at hc

theorem normalizeHex_empty : normalizeHex "" = "" := rfl

/-! ## Claims about the identifier deriver -/

/-- C2: with an empty id, the deriver synthesizes the fixed-width id as a
truncated SHA-256 digest of the caller-supplied timestamp (the clock value
`time.Now()` yields, threaded here as `ts`), so equal timestamps give the
identical id. -/
theorem empty_id_is_timestamp_digest (ts : Nat) :
    traceIDFromString "" ts =
      (sha256 (strBytes (toString ts ++ ":" ++ toString 16))).take 16 ∧
    spanIDFromString "" ts =
      (sha256 (strBytes (toString ts ++ ":" ++ toString 8))).take 8 := by
  constructor <;> simp [traceIDFromString, spanIDFromString, randomBytes]

/-- C3: a string whose normalized form is exactly 32 hex characters
round-trips (the result is precisely the hex-decode of the normalized
form, 16 bytes); any other non-empty string is digested (first 16 bytes
of SHA-256 of the original string). -/
theorem traceID_roundtrip_or_digest (s : String) (now : Nat) :
    ((normalizeHex s).length = 32 →
      hexDecodeStr (normalizeHex s) = some (traceIDFromString s now) ∧
      (traceIDFromString s now).length = 16) ∧
    (s ≠ "" → (normalizeHex s).length ≠ 32 →
      traceIDFromString s now = (sha256 (strBytes s)).take 16) := by
  constructor
  · intro h32
    have hs : s ≠ "" := by
      intro he
      rw [he, normalizeHex_empty] at h32
      simp at h32
    have hsome : (hexDecodeList (normalizeHex s).data).isSome := by
      apply hexDecodeList_isSome (normalizeHex s).data.length _ le_rfl (normalizeHex_chars s)
      have : (normalizeHex s).data.length = 32 := h32
      omega
    rcases Option.isSome_iff_exists.mp hsome with ⟨bs, hbs⟩
    have hlen : (normalizeHex s).data.length = 2 * bs.length := hexDecodeList_length _ _ hbs
    have h32d : (normalizeHex s).data.length = 32 := h32
    have hbl : bs.length = 16 := by omega
    have : traceIDFromString s now = bs := by
      simp only [traceIDFromString, if_neg hs, h32, if_pos, hexDecodeStr, hbs]
    rw [this]
    exact ⟨hbs, hbl⟩
  · intro hs h32
    simp only [traceIDFromString, if_neg hs, if_neg h32]

/-- C4: spanID hex-decodes a 16-hex-character normalized form directly
(8 bytes), takes the first 8 bytes of the decode of a 32-hex-character
normalized form, and otherwise digests the original non-empty string. -/
theorem spanID_decode_or_digest (s : String) (now : Nat) :
    ((normalizeHex s).length = 16 →
      hexDecodeStr (normalizeHex s) = some (spanIDFromString s now) ∧
      (spanIDFromString s now).length = 8) ∧
    ((normalizeHex s).length = 32 →
      (hexDecodeStr (normalizeHex s)).map (fun bs => bs.take 8) =
        some (spanIDFromString s now)) ∧
    (s ≠ "" → (normalizeHex s).length ≠ 16 → (normalizeHex s).length ≠ 32 →
      spanIDFromString s now = (sha256 (strBytes s)).take 8) := by
  refine ⟨?_, ?_, ?_⟩
  · intro h16
    have hs : s ≠ "" := by
      intro he
      rw [he, normalizeHex_empty] at h16
      simp at h16
    have hsome : (hexDecodeList (normalizeHex s).data).isSome := by
      apply hexDecodeList_isSome (normalizeHex s).data.length _ le_rfl (normalizeHex_chars s)
      have : (normalizeHex s).data.length = 16 := h16
      omega
    rcases Option.isSome_iff_exists.mp hsome with ⟨bs, hbs⟩
    have hlen : (normalizeHex s).data.length = 2 * bs.length := hexDecodeList_length _ _ hbs
    have h16d : (normalizeHex s).data.length = 16 := h16
    have hbl : bs.length = 8 := by omega
    have : spanIDFromString s now = bs := by
      simp only [spanIDFromString, if_neg hs, h16, if_pos, hexDecodeStr, hbs]
    rw [this]
    exact ⟨hbs, hbl⟩
  · intro h32
    have hs : s ≠ "" := by
      intro he
      rw [he, normalizeHex_empty] at h32
      simp at h32
    have h16 : (normalizeHex s).length ≠ 16 := by omega
    have hsome : (hexDecodeList (normalizeHex s).data).isSome := by
      apply hexDecodeList_isSome (normalizeHex s).data.length _ le_rfl (normalizeHex_chars s)
      have : (normalizeHex s).data.length = 32 := h32
      omega
    rcases Option.isSome_iff_exists.mp hsome with ⟨bs, hbs⟩
    have : spanIDFromString s now = bs.take 8 := by
      simp only [spanIDFromString, if_neg hs, if_neg h16, h32, if_pos, hexDecodeStr, hbs]
      simp
    rw [this, hexDecodeStr, hbs]
    rfl
  · intro hs h16 h32
    simp only [spanIDFromString, if_neg hs, if_neg h16, if_neg h32]

/-- C9: identifier derivation is total and fixed-width: 16 bytes out of
`traceIDFromString` and 8 bytes out of `spanIDFromString` for every
input string (empty, hex-shaped, or arbitrary). -/
theorem id_derivation_total_lengths (id : String) (now : Nat) :
    (traceIDFromString id now).length = 16 ∧ (spanIDFromString id now).length = 8 := by
  constructor
  · by_cases hid : id = ""
    · simp [traceIDFromString, hid, randomBytes_length]
    · simp only [traceIDFromString, if_neg hid]
      by_cases h32 : (normalizeHex id).length = 32
      · have hsome : (hexDecodeList (normalizeHex id).data).isSome := by
          apply hexDecodeList_isSome (normalizeHex id).data.length _ le_rfl
            (normalizeHex_chars id)
          have : (normalizeHex id).data.length = 32 := h32
          omega
        rcases Option.isSome_iff_exists.mp hsome with ⟨bs, hbs⟩
        have hlen : (normalizeHex id).data.length = 2 * bs.length := hexDecodeList_length _ _ hbs
        have h32d : (normalizeHex id).data.length = 32 := h32
        simp only [h32, if_pos, hexDecodeStr, hbs]
        omega
      · simp only [if_neg h32]
        simp [List.length_take, sha256_length]
  · by_cases hid : id = ""
    · simp [spanIDFromString, hid, randomBytes_length]
    · simp only [spanIDFromString, if_neg hid]
      by_cases h16 : (normalizeHex id).length = 16
      · have hsome : (hexDecodeList (normalizeHex id).data).isSome := by
          apply hexDecodeList_isSome (normalizeHex id).data.length _ le_rfl
            (normalizeHex_chars id)
          have : (normalizeHex id).data.length = 16 := h16
          omega
        rcases Option.isSome_iff_exists.mp hsome with ⟨bs, hbs⟩
        have hlen : (normalizeHex id).data.length = 2 * bs.length := hexDecodeList_length _ _ hbs
        have h16d : (normalizeHex id).data.length = 16 := h16
        simp only [h16, if_pos, hexDecodeStr, hbs]
        omega
      · simp only [if_neg h16]
        by_cases h32 : (normalizeHex id).length = 32
        · have hsome : (hexDecodeList (normalizeHex id).data).isSome := by
            apply hexDecodeList_isSome (normalizeHex id).data.length _ le_rfl
              (normalizeHex_chars id)
            have : (normalizeHex id).data.length = 32 := h32
            omega
          rcases Option.isSome_iff_exists.mp hsome with ⟨bs, hbs⟩
          have hlen : (normalizeHex id).data.length = 2 * bs.length := hexDecodeList_length _ _ hbs
          have h32d : (normalizeHex id).data.length = 32 := h32
          simp only [h32, if_pos, hexDecodeStr, hbs]
          simp [List.length_take]
          omega
        · simp only [if_neg h32]
          simp [List.length_take, sha256_length]

/-- Witness for C3 at concrete inputs: a UUID-shaped id round-trips and a
non-hex id takes the digest branch. -/
theorem traceID_roundtrip_or_digest_witness :
    (hexDecodeStr (normalizeHex "0102030405060708090a0b0c0d0e0f10") =
      some (traceIDFromString "0102030405060708090a0b0c0d0e0f10" 0) ∧
      (traceIDFromString "0102030405060708090a0b0c0d0e0f10" 0).length = 16) ∧
    traceIDFromString "not-hex!" 0 = (sha256 (strBytes "not-hex!")).take 16 :=
  ⟨(traceID_roundtrip_or_digest "0102030405060708090a0b0c0d0e0f10" 0).1 (by decide),
   (traceID_roundtrip_or_digest "not-hex!" 0).2 (by decide) (by decide)⟩

/-- Witness for C4 at concrete inputs covering all three branches. -/
theorem spanID_decode_or_digest_witness :
    (hexDecodeStr (normalizeHex "0102030405060708") =
      some (spanIDFromString "0102030405060708" 0) ∧
      (spanIDFromString "0102030405060708" 0).length = 8) ∧
    (hexDecodeStr (normalizeHex "0102030405060708090a0b0c0d0e0f10")).map (fun bs => bs.take 8) =
      some (spanIDFromString "0102030405060708090a0b0c0d0e0f10" 0) ∧
    spanIDFromString "not-hex!" 0 = (sha256 (strBytes "not-hex!")).take 8 :=
  ⟨(spanID_decode_or_digest "0102030405060708" 0).1 (by decide),
   (spanID_decode_or_digest "0102030405060708090a0b0c0d0e0f10" 0).2.1 (by decide),
   (spanID_decode_or_digest "not-hex!" 0).2.2 (by decide) (by decide) (by decide)⟩

/-! ## Usage merge asymmetry -/

/-- C7: generation-create assigns usage only when the stored usage is
still zero (first non-zero usage wins), while generation-update replaces
it exactly when the incoming usage is non-zero. -/
theorem usage_merge_asymmetry (st : ObservationState) (g : Generation) (id : String) :
    (genCreateState g id st).usage =
      (if isZeroUsage st.usage then g.usage else st.usage) ∧
    (genUpdateState g id st).usage =
      (if isZeroUsage g.usage then st.usage else g.usage) := by
  constructor
  · rfl
  · by_cases h : isZeroUsage g.usage <;> simp [genUpdateState, h]

/-! ## Span names -/

theorem kindString_ne_empty (k : ObservationKind) : kindString k ≠ "" := by
  cases k <;> simp [kindString]

theorem buildSpan_name (now : Nat) (st : ObservationState) (ctx : Option TraceContext) :
    (buildSpan now st ctx).name = coalesce st.name (kindString st.kind) := rfl

/-- C10: every emitted span has a non-empty name, and when no name was
ever recorded for the state the name defaults to the observation kind
string. -/
theorem span_name_nonempty_defaults (now : Nat) (st : ObservationState)
    (ctx : Option TraceContext) :
    (buildSpan now st ctx).name ≠ "" ∧
    (st.name = "" → (buildSpan now st ctx).name = kindString st.kind) ∧
    ∀ (now2 : Nat) (events : List IngestionEvent) (s : ProtoSpan),
      s ∈ encodeEvents now2 events → s.name ≠ "" := by
  refine ⟨?_, ?_, ?_⟩
  · rw [buildSpan_name]
    unfold coalesce
    split
    · assumption
    · exact kindString_ne_empty st.kind
  · intro h
    rw [buildSpan_name, h]
    simp [coalesce]
  · intro now2 events s hs
    rcases List.mem_filterMap.mp hs with ⟨k, _, hk⟩
    rcases Option.map_eq_some'.mp hk with ⟨st2, _, hst2⟩
    rw [← hst2, buildSpan_name]
    unfold coalesce
    split
    · assumption
    · exact kindString_ne_empty st2.kind

def c10Generation : Generation := { id := "0102030405060708" }

def c10Events : List IngestionEvent :=
  [{ type := ingestionEventTypeGenerationCreate, body := .generation c10Generation }]

def c10ExampleSpan : ProtoSpan :=
  buildSpan 0 (genCreateState c10Generation "0102030405060708" (freshState .generation 0)) none

set_option maxRecDepth 100000 in
/-- Witness for C10: a state that never got a name yields the kind
string, and a concrete encoded span has a non-empty name. -/
theorem span_name_nonempty_defaults_witness :
    (buildSpan 0 (freshState .generation 0) none).name = "generation" ∧
    c10ExampleSpan.name ≠ "" :=
  ⟨(span_name_nonempty_defaults 0 (freshState .generation 0) none).2.1 rfl,
   (span_name_nonempty_defaults 0 (freshState .generation 0) none).2.2 0 c10Events
     c10ExampleSpan (by decide)⟩

/-! ## Emission-order dependence of the encoding -/

/-- Does event resolution fall back to the timestamp-derived id
(`uuidFallback`)?  Observer for the C1 precondition. -/
def usesTimestampFallback (e : IngestionEvent) : Bool :=
  if e.type = ingestionEventTypeTraceCreate then
    match asTrace e.body with
    | some tr => tr.id == "" && e.id == ""
    | none => false
  else if e.type = ingestionEventTypeGenerationCreate ||
      e.type = ingestionEventTypeGenerationUpdate then
    match asGeneration e.body with
    | some g => g.id == ""
    | none => false
  else if e.type = ingestionEventTypeSpanCreate || e.type = ingestionEventTypeSpanUpdate then
    match asSpan e.body with
    | some s => s.id == ""
    | none => false
  else if e.type = ingestionEventTypeEventCreate then
    match asEvent e.body with
    | some ev => ev.id == ""
    | none => false
  else false

def c1TraceA : Trace := { id := "00000000000000000000000000000000" }

def c1TraceB : Trace := { id := "11111111111111111111111111111111" }

def c1Events : List IngestionEvent :=
  [{ type := ingestionEventTypeTraceCreate, body := .trace c1TraceA },
   { type := ingestionEventTypeTraceCreate, body := .trace c1TraceB }]

/-- C1 fails on the code: the emission loop ranges over the Go
observation map, whose iteration order the language leaves unspecified
(and the runtime randomizes); no sorting happens before emission.  For a
two-trace input slice that never touches the empty-id timestamp
fallback, two admissible iteration orders (the key list and its
reverse, a permutation) produce different span sequences — hence
different marshalled bytes, since protobuf serializes repeated fields
in list order. -/
theorem encode_order_dependent :
    c1Events.all (fun e => !usesTimestampFallback e) = true ∧
    ((obsKeys c1Events).reverse).Perm (obsKeys c1Events) ∧
    encodeOrd 0 c1Events (obsKeys c1Events) ≠
      encodeOrd 0 c1Events ((obsKeys c1Events).reverse) :=
  ⟨by decide, List.reverse_perm _, by decide⟩

/-! ## Generation create/update aggregation (C6) -/

theorem appendMetadataAttrs_extends (pfx : String) (m : Option JsonValue)
    (attrs : List KeyValue) :
    ∃ suffix, appendMetadataAttrs pfx m attrs = attrs ++ suffix := by
  cases m with
  | none => exact ⟨[], by simp [appendMetadataAttrs]⟩
  | some v => cases v <;> simp [appendMetadataAttrs]

theorem mem_appendMetadataAttrs (pfx : String) (m : Option JsonValue)
    (attrs : List KeyValue) (a : KeyValue) (h : a ∈ attrs) :
    a ∈ appendMetadataAttrs pfx m attrs := by
  rcases appendMetadataAttrs_extends pfx m attrs with ⟨suffix, hs⟩
  rw [hs]
  exact List.mem_append_left _ h

theorem output_attr_mem_observationAttributes (st : ObservationState) (v : JsonValue)
    (h : st.output = some v) :
    attrString "langfuse.observation.output" (jsonString (some v)) ∈
      observationAttributes st := by
  unfold observationAttributes
  apply List.mem_append_left
  apply List.mem_append_left
  apply List.mem_append_left
  apply List.mem_append_left
  apply List.mem_append_left
  apply List.mem_append_left
  apply List.mem_append_left
  apply List.mem_append_left
  apply List.mem_append_left
  apply mem_appendMetadataAttrs
  apply List.mem_append_right
  simp [h]

/-- Observable view used for C6: for each span, its end timestamp and
whether it carries the given output attribute. -/
def outputAndEnd (spans : List ProtoSpan) (v : JsonValue) : List (Nat × Bool) :=
  spans.map (fun s =>
    (s.endTimeUnixNano,
     decide (attrString "langfuse.observation.output" (jsonString (some v)) ∈ s.attributes)))

/-- C6: a generation-create followed by a generation-update sharing the
same non-empty id encodes to exactly one span, and that span's end
timestamp and output attribute are the update's values (the create's
are ignored: `g1` is arbitrary). -/
theorem generation_update_wins (g1 g2 : Generation) (i eid1 eid2 : String)
    (ts1 ts2 now : Nat) (v : JsonValue) (t : Nat)
    (hi : i ≠ "") (h1 : g1.id = i) (h2 : g2.id = i)
    (ho : g2.output = some v) (he : g2.endTime = some t) :
    outputAndEnd
      (encodeEvents now
        [{ type := ingestionEventTypeGenerationCreate, id := eid1, timestamp := ts1,
           body := .generation g1 },
         { type := ingestionEventTypeGenerationUpdate, id := eid2, timestamp := ts2,
           body := .generation g2 }]) v = [(t, true)] := by
  have hc1 : coalesce g1.id (uuidFallback ts1) = i := by
    rw [h1]; simp [coalesce, hi]
  have hc2 : coalesce g2.id (uuidFallback ts2) = i := by
    rw [h2]; simp [coalesce, hi]
  simp only [encodeEvents, encodeOrd, obsKeys, aggregate, buildTraceContexts, List.foldl,
    aggregateStep, ingestionEventTypeTraceCreate, ingestionEventTypeGenerationCreate,
    ingestionEventTypeGenerationUpdate, ingestionEventTypeSpanCreate,
    ingestionEventTypeSpanUpdate, ingestionEventTypeEventCreate, asTrace, asGeneration,
    hc1, hc2, getOrCreateThen, alookup, updateEntry, List.map, List.filterMap]
  simp only [String.reduceEq, if_false, if_true, ite_true, ite_false, reduceIte]
  set st2 := genUpdateState g2 i (genCreateState g1 i (freshState ObservationKind.generation ts1))
    with hst2
  have hout : st2.output = some v := by
    simp [hst2, genUpdateState, ho]
  have hend : st2.endTime = some t := by
    simp [hst2, genUpdateState, genCreateState, freshState, coalesceTime, he]
  have hattrs : (buildSpan now st2 none).attributes = observationAttributes st2 := by
    simp [buildSpan]
  have hmem : attrString "langfuse.observation.output" (jsonString (some v)) ∈
      (buildSpan now st2 none).attributes := by
    rw [hattrs]
    exact output_attr_mem_observationAttributes st2 v hout
  have hendspan : (buildSpan now st2 none).endTimeUnixNano = t := by
    simp [buildSpan, hend]
  simp [outputAndEnd, hendspan, hmem]

def c6Gen1 : Generation :=
  { id := "gen-1", output := some (.str "draft"), endTime := some 5 }

def c6Gen2 : Generation :=
  { id := "gen-1", output := some (.str "final"), endTime := some 9 }

/-- Witness for C6: with concrete create/update payloads the single
emitted span carries the update's end time (9, not 5) and output
("final"). -/
theorem generation_update_wins_witness :
    outputAndEnd
      (encodeEvents 0
        [{ type := ingestionEventTypeGenerationCreate, id := "", timestamp := 1,
           body := .generation c6Gen1 },
         { type := ingestionEventTypeGenerationUpdate, id := "", timestamp := 2,
           body := .generation c6Gen2 }]) (.str "final") = [(9, true)] :=
  generation_update_wins c6Gen1 c6Gen2 "gen-1" "" "" 1 2 0 (.str "final") 9
    (by decide) rfl rfl rfl rfl

/-! ## Span count (C5) -/

/-- The (kind, resolved-id) key an event contributes to the aggregation,
`none` for events the encoder skips (score-create, unknown kinds,
payload/kind mismatches). -/
def recognizedKey (e : IngestionEvent) : Option ObsKey :=
  if e.type = ingestionEventTypeTraceCreate then
    match asTrace e.body with
    | some tr => some ⟨.trace, resolveTraceID tr e⟩
    | none => none
  else if e.type = ingestionEventTypeGenerationCreate then
    match asGeneration e.body with
    | some g => some ⟨.generation, coalesce g.id (uuidFallback e.timestamp)⟩
    | none => none
  else if e.type = ingestionEventTypeGenerationUpdate then
    match asGeneration e.body with
    | some g => some ⟨.generation, coalesce g.id (uuidFallback e.timestamp)⟩
    | none => none
  else if e.type = ingestionEventTypeSpanCreate then
    match asSpan e.body with
    | some s => some ⟨.span, coalesce s.id (uuidFallback e.timestamp)⟩
    | none => none
  else if e.type = ingestionEventTypeSpanUpdate then
    match asSpan e.body with
    | some s => some ⟨.span, coalesce s.id (uuidFallback e.timestamp)⟩
    | none => none
  else if e.type = ingestionEventTypeEventCreate then
    match asEvent e.body with
    | some ev => some ⟨.event, coalesce ev.id (uuidFallback e.timestamp)⟩
    | none => none
  else none

theorem alookup_isSome_iff {κ α : Type} [DecidableEq κ] (l : List (κ × α)) (k : κ) :
    (alookup l k).isSome ↔ k ∈ l.map Prod.fst := by
  induction l with
  | nil => simp [alookup]
  | cons p rest ih =>
    by_cases h : p.1 = k
    · simp [alookup, h]
    · simp [alookup, h, ih, Ne.symm h]

theorem updateEntry_keys {κ α : Type} [DecidableEq κ] (l : List (κ × α)) (k : κ) (f : α → α) :
    (updateEntry l k f).map Prod.fst = l.map Prod.fst := by
  unfold updateEntry
  rw [List.map_map]
  apply List.map_congr_left
  intro p _
  by_cases h : p.1 = k <;> simp [h]

theorem getOrCreateThen_keys (obs : List (ObsKey × ObservationState)) (key : ObsKey)
    (kind : ObservationKind) (fb : Nat) (f : ObservationState → ObservationState) :
    (getOrCreateThen obs key kind fb f).map Prod.fst =
      if (alookup obs key).isSome then obs.map Prod.fst
      else obs.map Prod.fst ++ [key] := by
  unfold getOrCreateThen
  cases h : alookup obs key with
  | some st => simp [h, updateEntry_keys]
  | none => simp [h]

theorem aggregateStep_keys (obs : List (ObsKey × ObservationState)) (e : IngestionEvent) :
    (aggregateStep obs e).map Prod.fst =
      match recognizedKey e with
      | none => obs.map Prod.fst
      | some k =>
        if (alookup obs k).isSome then obs.map Prod.fst else obs.map Prod.fst ++ [k] := by
  unfold aggregateStep recognizedKey
  by_cases h1 : e.type = ingestionEventTypeTraceCreate
  · rw [if_pos h1, if_pos h1]
    cases hb : asTrace e.body with
    | some tr => simp [getOrCreateThen_keys]
    | none => simp
  · rw [if_neg h1, if_neg h1]
    by_cases h2 : e.type = ingestionEventTypeGenerationCreate
    · rw [if_pos h2, if_pos h2]
      cases hb : asGeneration e.body with
      | some g => simp [getOrCreateThen_keys]
      | none => simp
    · rw [if_neg h2, if_neg h2]
      by_cases h3 : e.type = ingestionEventTypeGenerationUpdate
      · rw [if_pos h3, if_pos h3]
        cases hb : asGeneration e.body with
        | some g => simp [getOrCreateThen_keys]
        | none => simp
      · rw [if_neg h3, if_neg h3]
        by_cases h4 : e.type = ingestionEventTypeSpanCreate
        · rw [if_pos h4, if_pos h4]
          cases hb : asSpan e.body with
          | some s => simp [getOrCreateThen_keys]
          | none => simp
        · rw [if_neg h4, if_neg h4]
          by_cases h5 : e.type = ingestionEventTypeSpanUpdate
          · rw [if_pos h5, if_pos h5]
            cases hb : asSpan e.body with
            | some s => simp [getOrCreateThen_keys]
            | none => simp
          · rw [if_neg h5, if_neg h5]
            by_cases h6 : e.type = ingestionEventTypeEventCreate
            · rw [if_pos h6, if_pos h6]
              cases hb : asEvent e.body with
              | some ev => simp [getOrCreateThen_keys]
              | none => simp
            · rw [if_neg h6, if_neg h6]

theorem aggregate_from_keys_finset :
    ∀ (es : List IngestionEvent) (obs : List (ObsKey × ObservationState)),
      ((es.foldl aggregateStep obs).map Prod.fst).toFinset =
        (obs.map Prod.fst).toFinset ∪ (es.filterMap recognizedKey).toFinset := by
  intro es
  induction es with
  | nil => simp
  | cons e rest ih =>
    intro obs
    have hstep : ((aggregateStep obs e).map Prod.fst).toFinset =
        (obs.map Prod.fst).toFinset ∪
          (match recognizedKey e with
            | none => (∅ : Finset ObsKey)
            | some k => {k}) := by
      rw [aggregateStep_keys]
      cases hk : recognizedKey e with
      | none => simp
      | some k =>
        by_cases hs : (alookup obs k).isSome
        · have hmem : k ∈ obs.map Prod.fst := (alookup_isSome_iff _ _).mp hs
          simp only [hs, if_true]
          rw [Finset.union_comm]
          rw [Finset.union_eq_right.mpr]
          simp [hmem]
        · simp [hs, List.toFinset_append]
    simp only [List.foldl_cons, List.filterMap_cons]
    rw [ih, hstep]
    cases hk : recognizedKey e with
    | none => simp
    | some k =>
      simp only [List.toFinset_cons]
      rw [Finset.union_assoc]
      congr 1

theorem aggregate_from_nodup :
    ∀ (es : List IngestionEvent) (obs : List (ObsKey × ObservationState)),
      (obs.map Prod.fst).Nodup → ((es.foldl aggregateStep obs).map Prod.fst).Nodup := by
  intro es
  induction es with
  | nil => intro obs h; simpa using h
  | cons e rest ih =>
    intro obs h
    simp only [List.foldl_cons]
    apply ih
    rw [aggregateStep_keys]
    cases hk : recognizedKey e with
    | none => exact h
    | some k =>
      by_cases hs : (alookup obs k).isSome
      · simpa [hs] using h
      · have hnotmem : k ∉ obs.map Prod.fst := fun hm => hs ((alookup_isSome_iff _ _).mpr hm)
        simp [hs, List.nodup_append, h, hnotmem]

theorem filterMap_length_of_all_isSome {α β : Type} (l : List α) (f : α → Option β)
    (h : ∀ a ∈ l, (f a).isSome) : (l.filterMap f).length = l.length := by
  induction l with
  | nil => rfl
  | cons a rest ih =>
    rcases Option.isSome_iff_exists.mp (h a (by simp)) with ⟨b, hb⟩
    simp only [List.filterMap_cons, hb, List.length_cons]
    rw [ih (fun x hx => h x (by simp [hx]))]

/-- C5: `EncodeEvents` emits exactly one span per distinct (kind,
resolved-id) key among the recognized events: `#spans = #distinct
keys`. -/
theorem span_count_eq_distinct_keys (now : Nat) (events : List IngestionEvent) :
    (encodeEvents now events).length = (events.filterMap recognizedKey).toFinset.card := by
  unfold encodeEvents encodeOrd obsKeys
  rw [filterMap_length_of_all_isSome]
  · have hnd : ((aggregate events).map Prod.fst).Nodup :=
      aggregate_from_nodup events [] (by simp)
    have hfin := aggregate_from_keys_finset events []
    simp only [List.map_nil, List.toFinset_nil, Finset.empty_union] at hfin
    rw [← List.toFinset_card_of_nodup hnd]
    unfold aggregate
    rw [hfin]
  · intro k hk
    rw [Option.isSome_map']
    exact (alookup_isSome_iff _ _).mpr hk

/-! ## First trace-create wins for `public` (C8) -/

def optOr {α : Type} : Option α → Option α → Option α
  | some x, _ => some x
  | none, b => b

theorem optOr_none_right {α : Type} (a : Option α) : optOr a none = a := by
  cases a <;> rfl

theorem optOr_some_absorb {α : Type} (a : Option α) (x : α) (b : Option α) :
    optOr (optOr a (some x)) b = optOr a (some x) := by
  cases a <;> rfl

/-- The `public` value carried by the first trace-create event whose
resolved trace id is `t` (the claim's reference point). -/
def firstTraceCreatePublic : List IngestionEvent → String → Option Bool
  | [], _ => none
  | e :: rest, t =>
    if e.type = ingestionEventTypeTraceCreate then
      match asTrace e.body with
      | some tr =>
        if resolveTraceID tr e = t then some tr.public
        else firstTraceCreatePublic rest t
      | none => firstTraceCreatePublic rest t
    else firstTraceCreatePublic rest t

theorem alookup_append {κ α : Type} [DecidableEq κ] (l1 l2 : List (κ × α)) (k : κ) :
    alookup (l1 ++ l2) k = optOr (alookup l1 k) (alookup l2 k) := by
  induction l1 with
  | nil => simp [alookup, optOr]
  | cons p rest ih =>
    by_cases h : p.1 = k <;> simp [alookup, h, ih, optOr]

theorem alookup_updateEntry_eq {κ α : Type} [DecidableEq κ] (l : List (κ × α)) (k : κ)
    (f : α → α) : alookup (updateEntry l k f) k = (alookup l k).map f := by
  induction l with
  | nil => rfl
  | cons p rest ih =>
    simp only [updateEntry, List.map_cons] at ih ⊢
    by_cases h : p.1 = k
    · subst h
      simp [alookup]
    · simp [alookup, h, ih]

theorem alookup_updateEntry_ne {κ α : Type} [DecidableEq κ] (l : List (κ × α)) (k k2 : κ)
    (f : α → α) (h : k2 ≠ k) : alookup (updateEntry l k f) k2 = alookup l k2 := by
  induction l with
  | nil => rfl
  | cons p rest ih =>
    simp only [updateEntry, List.map_cons] at ih ⊢
    by_cases hp : p.1 = k
    · subst hp
      have hne : p.1 ≠ k2 := fun he => h (he.symm)
      simp [alookup, hne, ih]
    · by_cases hp2 : p.1 = k2
      · rw [if_neg hp]
        simp [alookup, hp2]
      · rw [if_neg hp]
        simp [alookup, hp2, ih]

theorem getOrCreateThen_alookup_eq (obs : List (ObsKey × ObservationState)) (key : ObsKey)
    (kind : ObservationKind) (fb : Nat) (f : ObservationState → ObservationState) :
    alookup (getOrCreateThen obs key kind fb f) key =
      some (f (match alookup obs key with
        | some st => st
        | none => freshState kind fb)) := by
  unfold getOrCreateThen
  cases h : alookup obs key with
  | some st => simp [alookup_updateEntry_eq, h]
  | none => simp [alookup_append, h, alookup, optOr]

theorem getOrCreateThen_alookup_ne (obs : List (ObsKey × ObservationState)) (key k2 : ObsKey)
    (kind : ObservationKind) (fb : Nat) (f : ObservationState → ObservationState)
    (h : k2 ≠ key) :
    alookup (getOrCreateThen obs key kind fb f) k2 = alookup obs k2 := by
  unfold getOrCreateThen
  cases hl : alookup obs key with
  | some st => simp [alookup_updateEntry_ne _ _ _ _ h]
  | none =>
    rw [alookup_append]
    have : alookup [(key, f (freshState kind fb))] k2 = none := by
      simp [alookup, Ne.symm h]
    rw [this, optOr_none_right]

/-- The merge functions other than trace-create leave `public` alone. -/
theorem nonTrace_merges_keep_public (st : ObservationState) :
    (∀ g id, (genCreateState g id st).public = st.public) ∧
    (∀ g id, (genUpdateState g id st).public = st.public) ∧
    (∀ s id, (spanCreateState s id st).public = st.public) ∧
    (∀ s id, (spanUpdateState s id st).public = st.public) ∧
    (∀ ev id, (eventCreateState ev id st).public = st.public) := by
  refine ⟨fun g id => rfl, fun g id => rfl, fun s id => rfl, fun s id => rfl, fun ev id => rfl⟩

theorem traceCreateMerge_public (tr : Trace) (tid : String) (st : ObservationState) :
    (traceCreateMerge tr tid st).public = optOr st.public (some tr.public) := by
  cases h : st.public <;> simp [traceCreateMerge, h, optOr]

theorem c8_aux :
    ∀ (es : List IngestionEvent) (obs : List (ObsKey × ObservationState)) (t : String),
      (alookup (es.foldl aggregateStep obs) ⟨.trace, t⟩).bind (fun st => st.public) =
        optOr ((alookup obs ⟨.trace, t⟩).bind (fun st => st.public))
          (firstTraceCreatePublic es t) := by
  intro es
  induction es with
  | nil =>
    intro obs t
    simp [firstTraceCreatePublic, optOr_none_right]
  | cons e rest ih =>
    intro obs t
    simp only [List.foldl_cons]
    rw [ih]
    unfold aggregateStep
    simp only [firstTraceCreatePublic]
    by_cases h1 : e.type = ingestionEventTypeTraceCreate
    · rw [if_pos h1, if_pos h1]
      cases hb : asTrace e.body with
      | some tr =>
        dsimp only
        by_cases ht : resolveTraceID tr e = t
        · rw [if_pos ht, ht]
          rw [getOrCreateThen_alookup_eq]
          cases hl : alookup obs ⟨ObservationKind.trace, t⟩ with
          | some st =>
            simp [traceCreateMerge_public, optOr_some_absorb, Option.bind]
          | none =>
            simp [traceCreateMerge_public, freshState, optOr, Option.bind]
        · rw [if_neg ht]
          have hne : (⟨ObservationKind.trace, t⟩ : ObsKey) ≠
              ⟨ObservationKind.trace, resolveTraceID tr e⟩ := by
            intro he
            simp only [ObsKey.mk.injEq] at he
            exact ht he.2.symm
          rw [getOrCreateThen_alookup_ne _ _ _ _ _ _ hne]
      | none => rfl
    · rw [if_neg h1, if_neg h1]
      by_cases h2 : e.type = ingestionEventTypeGenerationCreate
      · rw [if_pos h2]
        cases hb : asGeneration e.body with
        | some g =>
          dsimp only
          rw [getOrCreateThen_alookup_ne _ _ _ _ _ _ (by intro he; simp at he)]
        | none => rfl
      · rw [if_neg h2]
        by_cases h3 : e.type = ingestionEventTypeGenerationUpdate
        · rw [if_pos h3]
          cases hb : asGeneration e.body with
          | some g =>
            dsimp only
            rw [getOrCreateThen_alookup_ne _ _ _ _ _ _ (by intro he; simp at he)]
          | none => rfl
        · rw [if_neg h3]
          by_cases h4 : e.type = ingestionEventTypeSpanCreate
          · rw [if_pos h4]
            cases hb : asSpan e.body with
            | some s =>
              dsimp only
              rw [getOrCreateThen_alookup_ne _ _ _ _ _ _ (by intro he; simp at he)]
            | none => rfl
          · rw [if_neg h4]
            by_cases h5 : e.type = ingestionEventTypeSpanUpdate
            · rw [if_pos h5]
              cases hb : asSpan e.body with
              | some s =>
                dsimp only
                rw [getOrCreateThen_alookup_ne _ _ _ _ _ _ (by intro he; simp at he)]
              | none => rfl
            · rw [if_neg h5]
              by_cases h6 : e.type = ingestionEventTypeEventCreate
              · rw [if_pos h6]
                cases hb : asEvent e.body with
                | some ev =>
                  dsimp only
                  rw [getOrCreateThen_alookup_ne _ _ _ _ _ _ (by intro he; simp at he)]
                | none => rfl
              · rw [if_neg h6]

/-- C8: for every trace key, the aggregated `public` flag equals the
flag carried by the first trace-create event that resolves to that key
(and is therefore never overwritten by later trace-creates). -/
theorem public_from_first_trace_create (events : List IngestionEvent) (t : String) :
    (alookup (aggregate events) ⟨.trace, t⟩).bind (fun st => st.public) =
      firstTraceCreatePublic events t := by
  have h := c8_aux events [] t
  simpa [aggregate, alookup, optOr] using h
